import Mathlib

/-!
Verification of the pimodules UPS PIco firmware-update toolkit (pico.py,
upis_fw.py) against its natural-language specification.

The Python sources are shallowly embedded below.  Lines of the firmware
file are modelled as `List Char`; bytes received over the serial link are
modelled as `List Nat`.  The boolean return values of the Python functions,
together with the distinct log messages they emit on each failure path, are
modelled by small inductive result types.
-/

namespace Pimodules

/-! ## Characters, hex digits and Python `str.strip` -/

/-- Python `str.strip` / `bytes.strip` whitespace set. -/
def isPySpace (c : Char) : Bool :=
  c = ' ' || c = '\t' || c = '\n' || c = '\r' || c = '\x0b' || c = '\x0c'

/-- Python `line.strip()`: remove leading and trailing whitespace. -/
def pyStrip (l : List Char) : List Char :=
  ((l.dropWhile isPySpace).reverse.dropWhile isPySpace).reverse

/-- The regex character class `[a-fA-F0-9]` of `validate_file`. -/
def isHexDigit (c : Char) : Bool :=
  (48 ≤ c.toNat && c.toNat ≤ 57) || (97 ≤ c.toNat && c.toNat ≤ 102) ||
    (65 ≤ c.toNat && c.toNat ≤ 70)

/-- Value of one hex digit, as computed by Python `int(c, 16)`. -/
def hexVal (c : Char) : Nat :=
  if 48 ≤ c.toNat && c.toNat ≤ 57 then c.toNat - 48
  else if 97 ≤ c.toNat then c.toNat - 87
  else c.toNat - 55

/-- Value of a two-digit hex pair, Python `int(ab, 16)`. -/
def hexByte (a b : Char) : Nat := 16 * hexVal a + hexVal b

/-- Python `sum(int(line[i:i+2],16) for i in range(1, len(line), 2))` applied
to the part of the line after the leading colon: sum of consecutive hex
pairs (a trailing odd digit is summed as a single digit, exactly as the
Python slice `line[i:i+2]` would yield a one-character string). -/
def pairSum : List Char → Nat
  | [] => 0
  | [a] => hexVal a
  | a :: b :: t => hexByte a b + pairSum t

/-! ## validate_file (pico.py lines 492-521, upis_fw.py lines 136-153) -/

/-- Whether the regex
`^:([a-fA-F0-9]{2}){4}([a-fA-F0-9]*)([a-fA-F0-9]{2})$` matches the
(stripped) line: a colon followed by at least 10 hex digits and nothing
else. -/
def matchesRecord (line : List Char) : Bool :=
  match line with
  | c :: rest => c = ':' && rest.all isHexDigit && decide (10 ≤ rest.length)
  | [] => false

/-- `int(target.group(1), 16)`: the declared byte count, first hex pair
after the colon. -/
def declaredCount (rest : List Char) : Nat :=
  match rest with
  | a :: b :: _ => hexByte a b
  | _ => 0

/-- `target.group(4)`: the record-type field, characters 6-7 after the
colon. -/
def typeField (rest : List Char) : List Char := (rest.drop 6).take 2

/-- `len(target.group(5))`: length of the payload group, everything between
the fixed 8-digit header and the final 2-digit checksum. -/
def payloadLen (rest : List Char) : Nat := rest.length - 10

/-- Result of `validate_file`.  The Python function returns only a boolean,
but each failure path emits a distinct log message; the constructors record
which path was taken.  `exnFailure` is the `except:` handler (log message
"Failed to verify firmware file"), reached e.g. when a line does not match
the record regex and `target.group(5)` raises `AttributeError`. -/
inductive VResult where
  | ok
  | lengthMismatch (lnum : Nat)
  | checksumMismatch (lnum : Nat)
  | missingEof
  | exnFailure
deriving DecidableEq, Repr

/-- The per-line validation loop of `validate_file`, with `lnum` the
1-based number of the first line of `ls`. -/
def validateLines : List (List Char) → Nat → VResult
  | [], _ => .missingEof
  | l :: ls, lnum =>
    let line := pyStrip l
    if matchesRecord line then
      let rest := line.drop 1
      if payloadLen rest ≠ 2 * declaredCount rest then .lengthMismatch lnum
      else if pairSum rest % 256 ≠ 0 then .checksumMismatch lnum
      else if typeField rest = ['0', '1'] then .ok
      else validateLines ls (lnum + 1)
    else .exnFailure

/-- `picoUPS.validate_file` (pico.py).  Before the line loop it computes an
MD5 digest of the raw file bytes unless `skip_fw_md5` is set; any exception
raised there is caught by the surrounding `except:` handler, which makes
the whole function return `False`.  `md5Fails` models whether that digest
step raises. -/
def validate_file (skipMd5 md5Fails : Bool) (lines : List (List Char)) : VResult :=
  if !skipMd5 && md5Fails then .exnFailure else validateLines lines 1

/-! Spec-side per-line predicates, used to state the claims.  Each one is a
direct reading of one check of `validateLines` on a single line. -/

/-- The stripped line with its leading colon removed. -/
def recRest (l : List Char) : List Char := (pyStrip l).drop 1

/-- The stripped line matches the record grammar. -/
def lineWellFormed (l : List Char) : Bool := matchesRecord (pyStrip l)

/-- The declared byte count equals half the payload length. -/
def lineCountOk (l : List Char) : Bool :=
  decide (payloadLen (recRest l) = 2 * declaredCount (recRest l))

/-- The 8-bit sum of all decoded byte pairs of the line is 0 mod 256. -/
def lineChecksumOk (l : List Char) : Bool :=
  decide (pairSum (recRest l) % 256 = 0)

/-- The record-type field is the end-of-file marker `01`. -/
def lineIsEof (l : List Char) : Bool := decide (typeField (recRest l) = ['0', '1'])

/-- The line is well formed and passes both arithmetic checks. -/
def lineOk (l : List Char) : Bool :=
  lineWellFormed l && lineCountOk l && lineChecksumOk l

/-- Spec reading of a successful scan: every line up to and including the
first end-of-file record passes all checks, and such a record exists. -/
def scanOk : List (List Char) → Bool
  | [] => false
  | l :: ls => lineOk l && (lineIsEof l || scanOk ls)

/-! ## send_file (pico.py lines 524-554)

`send_line` flushes stale input, writes `line.strip()+"\r"` over serial and
then waits for an acknowledgement; its boolean result for the `n`-th sent
line is modelled by an oracle `ack : Nat → Bool` (1-based line numbers).
The bytes actually written are recorded in `sent`. -/

/-- What `send_line` transmits for one file line: the stripped line with a
carriage return appended. -/
def sendLineText (l : List Char) : List Char := pyStrip l ++ ['\r']

/-- Python `line[7:9]` on the raw (unstripped) file line. -/
def line79 (l : List Char) : List Char := (l.drop 7).take 2

/-- Outcome of `send_file`: the transmitted lines in order, the boolean
return value `ret`, and the line number named by the
"Failed to ack the line {0}" log message, when any. -/
structure SendOutcome where
  sent : List (List Char)
  ok : Bool
  failedAt : Option Nat
deriving DecidableEq, Repr

/-- The upload loop of `send_file`: send each line, stop with failure on a
missed acknowledgement, stop with success after the first line whose raw
characters 7-8 are `01`.  `n` is the 1-based number of the head line. -/
def sendFileLoop (ack : Nat → Bool) : List (List Char) → Nat → SendOutcome
  | [], _ => ⟨[], true, none⟩
  | l :: ls, n =>
    if ack n then
      if line79 l = ['0', '1'] then ⟨[sendLineText l], true, none⟩
      else
        let r := sendFileLoop ack ls (n + 1)
        ⟨sendLineText l :: r.sent, r.ok, r.failedAt⟩
    else ⟨[sendLineText l], false, some n⟩

/-- `picoUPS.send_file` (pico.py): upload the file's lines starting at line
number 1. -/
def send_file (ack : Nat → Bool) (lines : List (List Char)) : SendOutcome :=
  sendFileLoop ack lines 1

/-- The prefix of the file that `send_file` walks when every line is
acknowledged: everything up to and including the first line whose raw
characters 7-8 are `01`. -/
def takeThrough01 : List (List Char) → List (List Char)
  | [] => []
  | l :: ls => if line79 l = ['0', '1'] then [l] else l :: takeThrough01 ls

/-! ## wait_ack (pico.py lines 569-600)

Inbound serial traffic is modelled as `polls : Nat → List (List Nat)`: the
list of byte lines drained from the port on the `i`-th iteration of the
outer `while` loop. -/

/-- Python `bytes.strip` whitespace set, on byte values. -/
def isSpaceByte (b : Nat) : Bool :=
  b = 32 || b = 9 || b = 10 || b = 13 || b = 11 || b = 12

/-- One received line counts as an acknowledgement iff
`line.strip()[0] == 6`: the first byte after leading whitespace is 6.  A
line that is all whitespace raises `IndexError`, which the code swallows
(`except: pass`), so it is not an acknowledgement. -/
def isAckLine (l : List Nat) : Bool := (l.dropWhile isSpaceByte).head? = some 6

/-- The bounded polling loop of `wait_ack`: examine at most `fuel` polls
starting with poll `i`; return `True` as soon as one drained line is an
acknowledgement, `False` when the budget is exhausted. -/
def waitAckAux (polls : Nat → List (List Nat)) (i : Nat) : Nat → Bool
  | 0 => false
  | fuel + 1 => if (polls i).any isAckLine then true else waitAckAux polls (i + 1) fuel

/-- `picoUPS.wait_ack` (pico.py), with polling budget `ackWait`
(default 300). -/
def wait_ack (polls : Nat → List (List Nat)) (ackWait : Nat) : Bool :=
  waitAckAux polls 0 ackWait

/-! ## run_i2c_with_retry (pico.py lines 603-644) -/

/-- Behaviour of one attempted bus operation: a returned value (for writes,
the fact that the call returned), a transient `IOError`, or any other
exception. -/
inductive BusOutcome where
  | val (v : Nat)
  | ioError
  | otherError
deriving DecidableEq, Repr

/-- Result of `run_i2c_with_retry`.  The Python function returns the read
value, `True` (writes) or `None`; the `None` paths are distinguished by
their log messages. -/
inductive I2CResult where
  | value (v : Nat)
  | okWrite
  | missingWriteData
  | busOpenFailed
  | unsupportedOp
  | nonTransientFailure
  | retriesExhausted
deriving DecidableEq, Repr

/-- Observable outcome of one `run_i2c_with_retry` call: its result, how
many bus operations were attempted, how many `time.sleep(try_delay)` calls
were made, and whether the lazy bus initialisation was attempted. -/
structure I2CRun where
  result : I2CResult
  attempts : Nat
  sleeps : Nat
  openAttempted : Bool
deriving DecidableEq, Repr

/-- Python `op.startswith('w')`: the operation string begins with `w`. -/
def startsWithW (op : String) : Bool :=
  match op.data with
  | 'w' :: _ => true
  | _ => false

/-- The operation strings dispatched inside the retry loop. -/
def dispatchOk (op : String) : Bool :=
  op = "rb" || op = "rw" || op = "wb" || op = "ww"

/-- Whether the operation returns a read value (`rb`/`rw`) rather than
`True` (`wb`/`ww`). -/
def isReadOp (op : String) : Bool := op = "rb" || op = "rw"

/-- The `while max_tries > 0` loop: attempt the bus operation; on `IOError`
decrement the budget, sleep and retry; on any other exception abort; an
unsupported operation string returns `None` at once without touching the
bus.  `i` numbers the attempts (0-based), `fuel` is the remaining budget.
Returns (result, bus operations attempted, sleeps performed). -/
def attemptLoop (op : String) (outcome : Nat → BusOutcome) :
    Nat → Nat → I2CResult × Nat × Nat
  | _, 0 => (.retriesExhausted, 0, 0)
  | i, fuel + 1 =>
    if dispatchOk op then
      match outcome i with
      | .val v => (if isReadOp op then .value v else .okWrite, 1, 0)
      | .ioError =>
        match attemptLoop op outcome (i + 1) fuel with
        | (r, a, s) => (r, a + 1, s + 1)
      | .otherError => (.nonTransientFailure, 1, 0)
    else (.unsupportedOp, 0, 0)

/-- `picoUPS.run_i2c_with_retry` (pico.py).  `busCached` models whether
`self.i2cbus` is already initialised, `busOpenOk` whether `SMBus(1)` would
succeed, `outcome i` the behaviour of the `i`-th bus attempt, and
`maxTries` the `max_tries` policy (default 12). -/
def run_i2c_with_retry (op : String) (data : Option Nat)
    (busCached busOpenOk : Bool) (outcome : Nat → BusOutcome)
    (maxTries : Nat) : I2CRun :=
  if startsWithW op && data.isNone then ⟨.missingWriteData, 0, 0, false⟩
  else if !busCached && !busOpenOk then ⟨.busOpenFailed, 0, 0, true⟩
  else
    match attemptLoop op outcome 0 maxTries with
    | (r, a, s) => ⟨r, a, s, !busCached⟩

/-! ## upload_firmware (pico.py lines 390-477) and hardware trace

The hardware interactions of one program run are recorded as a list of
events.  `get_capabilities` (pico.py lines 136-179) runs from `parse_args`
before `upload_firmware` on every invocation and, when the smbus module is
available, reads the PCB-version and model registers over I2C. -/

/-- One hardware interaction. -/
inductive HWEvent where
  | i2cRead (dev addr : Nat)
  | i2cWrite (dev addr v : Nat)
  | serialOpen
  | serialWrite (line : List Char)
deriving DecidableEq, Repr

/-- Did the `run_i2c_with_retry` call return something other than `None`? -/
def resultOk : I2CResult → Bool
  | .value _ => true
  | .okWrite => true
  | _ => false

/-- The bus event produced by one attempt of an I2C operation.  Writes
carry `kwargs.get('data', 10)`. -/
def i2cOpEvent (op : String) (dev addr : Nat) (data : Option Nat) : HWEvent :=
  if isReadOp op then .i2cRead dev addr else .i2cWrite dev addr (data.getD 10)

/-- Environment of one program run: module availability, behaviour of the
file digest, the firmware file's lines, and the behaviour of the serial
peer and of the I2C bus.  `busOutcome c i` is the outcome of attempt `i`
of the `c`-th I2C call site. -/
structure UploadEnv where
  serialAvail : Bool
  smbusAvail : Bool
  md5Fails : Bool
  fwLines : List (List Char)
  busCached : Bool
  busOpenOk : Bool
  busOutcome : Nat → Nat → BusOutcome
  serialOpenOk : Bool
  probeAck : Nat → Bool
  ack : Nat → Bool

/-- Command-line flags consumed by `upload_firmware`. -/
structure UploadArgs where
  skip_fw_verify : Bool
  fw_verify_only : Bool
  skip_fw_md5 : Bool
  skip_i2c_fw : Bool
  skip_i2c_bl : Bool
  skip_i2c_reset : Bool
  i2c_bl_local : Bool

/-- One `run_i2c_with_retry` call at call site `c`, together with the bus
events of its attempts (default policy, 12 tries). -/
def i2cCall (env : UploadEnv) (c : Nat) (op : String) (dev addr : Nat)
    (data : Option Nat) : I2CRun × List HWEvent :=
  let r := run_i2c_with_retry op data env.busCached env.busOpenOk (env.busOutcome c) 12
  (r, List.replicate r.attempts (i2cOpEvent op dev addr data))

/-- `picoUPS.test_serial` (pico.py lines 480-488): up to 50 attempts to
send the fixed probe line and receive an acknowledgement. -/
def probeLine : List Char := ":020000040000FA".toList ++ ['\r']

/-- The attempt loop of `test_serial`; each attempt writes the probe line
before waiting. -/
def testSerialAux (probeAck : Nat → Bool) : Nat → Nat → Bool × List (List Char)
  | _, 0 => (false, [])
  | i, fuel + 1 =>
    if probeAck i then (true, [probeLine])
    else
      match testSerialAux probeAck (i + 1) fuel with
      | (b, t) => (b, probeLine :: t)

/-- `picoUPS.test_serial`, returning its result and serial trace. -/
def test_serial (env : UploadEnv) : Bool × List HWEvent :=
  match testSerialAux env.probeAck 0 50 with
  | (b, t) => (b, t.map .serialWrite)

/-- The pre-upload I2C phase of `upload_firmware` (lines 413-438): read the
current firmware version unless skipped, then command bootloader mode
(0xff local, 0xbb remote) unless skipped.  Skipped entirely when smbus is
unavailable. -/
def uploadPre (args : UploadArgs) (env : UploadEnv) : Bool × List HWEvent :=
  if !env.smbusAvail then (true, [])
  else
    let step1 : Bool × List HWEvent :=
      if !args.skip_i2c_fw then
        let p := i2cCall env 0 "rw" 0x69 0x38 none
        (resultOk p.1.result, p.2)
      else (true, [])
    if !step1.1 then (false, step1.2)
    else if !args.skip_i2c_bl then
      let d : Nat := if args.i2c_bl_local then 0xff else 0xbb
      let p := i2cCall env 1 "wb" 0x6b 0x00 (some d)
      (resultOk p.1.result, step1.2 ++ p.2)
    else (true, step1.2)

/-- The post-upload I2C phase of `upload_firmware` (lines 460-473): factory
reset (0xdd) unless skipped, then re-read the firmware version unless
skipped. -/
def uploadPost (args : UploadArgs) (env : UploadEnv) : Bool × List HWEvent :=
  if !env.smbusAvail then (true, [])
  else
    let step1 : Bool × List HWEvent :=
      if !args.skip_i2c_reset then
        let p := i2cCall env 2 "wb" 0x6b 0x00 (some 0xdd)
        (resultOk p.1.result, p.2)
      else (true, [])
    if !step1.1 then (false, step1.2)
    else if !args.skip_i2c_fw then
      let p := i2cCall env 3 "rw" 0x69 0x38 none
      (resultOk p.1.result, step1.2 ++ p.2)
    else (true, step1.2)

/-- `picoUPS.upload_firmware` after the verification step: bootloader mode
switch, serial open, link test, upload, reset and version re-read.
Returns the boolean result and the hardware trace. -/
def uploadAfterVerify (args : UploadArgs) (env : UploadEnv) : Bool × List HWEvent :=
  let pre := uploadPre args env
  if !pre.1 then (false, pre.2)
  else if !env.serialOpenOk then (false, pre.2)
  else
    let t1 := pre.2 ++ [HWEvent.serialOpen]
    let ts := test_serial env
    if !ts.1 then (false, t1 ++ ts.2)
    else
      let sf := send_file env.ack env.fwLines
      let sfT := sf.sent.map HWEvent.serialWrite
      if sf.ok then
        let post := uploadPost args env
        (post.1, t1 ++ ts.2 ++ sfT ++ post.2)
      else (false, t1 ++ ts.2 ++ sfT)

/-- `picoUPS.upload_firmware` (pico.py lines 390-477): capability check,
optional validation, the `fw_verify_only` early success return, then the
hardware phases. -/
def upload_firmware (args : UploadArgs) (env : UploadEnv) : Bool × List HWEvent :=
  if !env.serialAvail then (false, [])
  else if !args.skip_fw_verify &&
      decide (validate_file args.skip_fw_md5 env.md5Fails env.fwLines ≠ .ok) then
    (false, [])
  else if args.fw_verify_only then (true, [])
  else uploadAfterVerify args env

/-- The I2C traffic of `get_capabilities` (pico.py lines 162-173): when the
smbus module is available it reads the PICO PCB-version register (0x69,
0x35) and the model register (0x69, 0x36) via `run_i2c_with_retry`. -/
def get_capabilities_trace (env : UploadEnv) : List HWEvent :=
  if env.smbusAvail then
    (i2cCall env 4 "rb" 0x69 0x35 none).2 ++ (i2cCall env 5 "rb" 0x69 0x36 none).2
  else []

/-- Hardware trace of one full `pico.py -f <file>` run: `parse_args` calls
`get_capabilities` first, then `upload_firmware`. -/
def program_trace (args : UploadArgs) (env : UploadEnv) : List HWEvent :=
  get_capabilities_trace env ++ (upload_firmware args env).2

/-! Concrete fixtures: a verify-only invocation (`-G`, here with `-H` to
skip the digest) on a host where every Python module is available and the
hardware answers every request on the first attempt. -/

/-- Flags of a `pico.py -f fw.hex -G -H` invocation. -/
def cexArgs : UploadArgs := ⟨false, true, true, false, false, false, false⟩

/-- A fully cooperative host and device with a minimal valid firmware
file. -/
def cexEnv : UploadEnv :=
  ⟨true, true, false, [":00000001FF".toList], false, true, fun _ _ => .val 0,
    true, fun _ => true, fun _ => true⟩

/-! # Theorems -/

/-! ## Retry-loop lemmas -/

/-- A bus that always raises `IOError` makes the retry loop use its whole
budget and report exhaustion, sleeping once after every failed attempt. -/
theorem attemptLoop_all_io (op : String) (hop : dispatchOk op = true)
    (outcome : Nat → BusOutcome) (h : ∀ j, outcome j = .ioError) :
    ∀ fuel i, attemptLoop op outcome i fuel = (.retriesExhausted, fuel, fuel) := by
  intro fuel
  induction fuel with
  | zero => intro i; rfl
  | succ m ih =>
    intro i
    simp only [attemptLoop, hop, if_true, h i, ih (i + 1)]

/-- If the first `k` attempts raise `IOError` and attempt `k` (0-based)
returns, the loop stops there: `k + 1` attempts and `k` sleeps. -/
theorem attemptLoop_success (op : String) (hop : dispatchOk op = true)
    (outcome : Nat → BusOutcome) (v : Nat) :
    ∀ (k i fuel : Nat), (∀ j, j < k → outcome (i + j) = .ioError) →
    outcome (i + k) = .val v → k < fuel →
    attemptLoop op outcome i fuel =
      ((if isReadOp op then .value v else .okWrite), k + 1, k) := by
  intro k
  induction k with
  | zero =>
    intro i fuel _ hv hf
    match fuel, hf with
    | m + 1, _ =>
      simp only [attemptLoop, hop, if_true]
      rw [show i + 0 = i from rfl] at hv
      rw [hv]
  | succ m ih =>
    intro i fuel hio hv hf
    match fuel, hf with
    | n + 1, hf =>
      have h0 : outcome i = .ioError := by
        have := hio 0 (Nat.succ_pos m)
        simpa using this
      have hio' : ∀ j, j < m → outcome (i + 1 + j) = .ioError := by
        intro j hj
        have := hio (j + 1) (by omega)
        rwa [show i + (j + 1) = i + 1 + j by omega] at this
      have hv' : outcome (i + 1 + m) = .val v := by
        rwa [show i + (m + 1) = i + 1 + m by omega] at hv
      simp only [attemptLoop, hop, if_true, h0,
        ih (i + 1) n hio' hv' (by omega)]

/-- A non-`IOError` exception aborts on the attempt that raised it. -/
theorem attemptLoop_other (op : String) (hop : dispatchOk op = true)
    (outcome : Nat → BusOutcome) (i fuel : Nat) (h : outcome i = .otherError)
    (hf : 0 < fuel) : attemptLoop op outcome i fuel = (.nonTransientFailure, 1, 0) := by
  match fuel, hf with
  | m + 1, _ => simp only [attemptLoop, hop, if_true, h]

/-- C3: with `max_tries = N` and a bus raising a transient `IOError` on
every attempt, `run_i2c_with_retry` performs exactly `N` attempts with a
`try_delay` sleep after each failure and returns the retries-exhausted
`None` path; if the attempt with 0-based index `k < N` does not fault, it
returns that attempt's result after exactly `k + 1` attempts (no further
ones); a non-transient exception on the first attempt aborts immediately
with no retry and no sleep. -/
theorem retry_policy_behaviour :
    (∀ (op : String) (data : Option Nat) (busCached : Bool)
        (outcome : Nat → BusOutcome) (N : Nat),
      dispatchOk op = true → (startsWithW op && data.isNone) = false →
      (∀ i, outcome i = .ioError) →
      run_i2c_with_retry op data busCached true outcome N =
        ⟨.retriesExhausted, N, N, !busCached⟩) ∧
    (∀ (op : String) (data : Option Nat) (busCached : Bool)
        (outcome : Nat → BusOutcome) (N k v : Nat),
      dispatchOk op = true → (startsWithW op && data.isNone) = false →
      (∀ j, j < k → outcome j = .ioError) → outcome k = .val v → k < N →
      run_i2c_with_retry op data busCached true outcome N =
        ⟨(if isReadOp op then .value v else .okWrite), k + 1, k, !busCached⟩) ∧
    (∀ (op : String) (data : Option Nat) (busCached : Bool)
        (outcome : Nat → BusOutcome) (N : Nat),
      dispatchOk op = true → (startsWithW op && data.isNone) = false →
      outcome 0 = .otherError → 0 < N →
      run_i2c_with_retry op data busCached true outcome N =
        ⟨.nonTransientFailure, 1, 0, !busCached⟩) := by
  refine ⟨?_, ?_, ?_⟩
  · intro op data busCached outcome N hop hdata hio
    simp only [run_i2c_with_retry, hdata, Bool.false_eq_true, if_false,
      Bool.not_true, Bool.and_false, attemptLoop_all_io op hop outcome hio N 0]
  · intro op data busCached outcome N k v hop hdata hio hv hk
    have hio' : ∀ j, j < k → outcome (0 + j) = .ioError := by
      intro j hj; simpa using hio j hj
    have hv' : outcome (0 + k) = .val v := by simpa using hv
    simp only [run_i2c_with_retry, hdata, Bool.false_eq_true, if_false,
      Bool.not_true, Bool.and_false,
      attemptLoop_success op hop outcome v k 0 N hio' hv' hk]
  · intro op data busCached outcome N hop hdata ho hN
    simp only [run_i2c_with_retry, hdata, Bool.false_eq_true, if_false,
      Bool.not_true, Bool.and_false, attemptLoop_other op hop outcome 0 N ho hN]

/-- C3 witness: concrete runs of the three scenarios, each through
`retry_policy_behaviour`. -/
theorem retry_policy_behaviour_witness :
    run_i2c_with_retry "rb" none false true (fun _ => .ioError) 3 =
      ⟨.retriesExhausted, 3, 3, true⟩ ∧
    run_i2c_with_retry "rb" none false true
      (fun i => if i = 2 then .val 7 else .ioError) 12 = ⟨.value 7, 3, 2, true⟩ ∧
    run_i2c_with_retry "wb" (some 5) false true (fun _ => .otherError) 12 =
      ⟨.nonTransientFailure, 1, 0, true⟩ := by
  refine ⟨?_, ?_, ?_⟩
  · exact retry_policy_behaviour.1 "rb" none false (fun _ => .ioError) 3
      (by decide) (by decide) (fun _ => rfl)
  · have h := retry_policy_behaviour.2.1 "rb" none false
      (fun i => if i = 2 then .val 7 else .ioError) 12 2 7 (by decide) (by decide)
      (fun j hj => by
        rcases j with _ | _ | j
        · rfl
        · rfl
        · omega)
      rfl (by decide)
    rw [h]
    decide
  · exact retry_policy_behaviour.2.2 "wb" (some 5) false (fun _ => .otherError) 12
      (by decide) (by decide) rfl (by decide)

/-- C7: a write operation (`wb` or `ww`) invoked without a `data` value
fails at once on the missing-write-data path: zero bus attempts, zero
sleeps, and the lazy bus initialisation is never reached. -/
theorem write_without_data_fails_immediately (op : String) (data : Option Nat)
    (busCached busOpenOk : Bool) (outcome : Nat → BusOutcome) (maxTries : Nat)
    (hop : op = "wb" ∨ op = "ww") (hdata : data = none) :
    run_i2c_with_retry op data busCached busOpenOk outcome maxTries =
      ⟨.missingWriteData, 0, 0, false⟩ := by
  subst hdata
  rcases hop with h | h <;> subst h <;> rfl

/-- C7 witness: a concrete `wb` call with no data. -/
theorem write_without_data_fails_immediately_witness :
    run_i2c_with_retry "wb" none true false (fun _ => .val 0) 12 =
      ⟨.missingWriteData, 0, 0, false⟩ :=
  write_without_data_fails_immediately "wb" none true false (fun _ => .val 0) 12
    (Or.inl rfl) rfl

/-! ## wait_ack -/

/-- Unrolling of the polling loop from an arbitrary starting iteration. -/
theorem waitAckAux_iff (polls : Nat → List (List Nat)) :
    ∀ (fuel i : Nat), waitAckAux polls i fuel = true ↔
      ∃ j, j < fuel ∧ ((polls (i + j)).any isAckLine) = true := by
  intro fuel
  induction fuel with
  | zero => intro i; simp [waitAckAux]
  | succ m ih =>
    intro i
    simp only [waitAckAux]
    by_cases h : (polls i).any isAckLine = true
    · simp only [h, if_true, true_iff]
      exact ⟨0, Nat.succ_pos m, by simpa using h⟩
    · simp only [h, if_false, Bool.false_eq_true, ih (i + 1)]
      constructor
      · rintro ⟨j, hj, hl⟩
        exact ⟨j + 1, by omega, by rwa [show i + (j + 1) = i + 1 + j by omega]⟩
      · rintro ⟨j, hj, hl⟩
        rcases j with _ | j
        · exact absurd (by simpa using hl) h
        · exact ⟨j, by omega, by rwa [show i + 1 + j = i + (j + 1) by omega]⟩

/-- C9: `wait_ack` reports success exactly when, within its polling budget
(default 300 iterations), some received line has the byte 6 as its first
non-whitespace byte (`isAckLine`).  In particular an inbound byte other
than 6 is ignored: it can neither acknowledge nor make the wait fail
early, and failure happens only when the whole budget is exhausted
without such a byte. -/
theorem wait_ack_only_byte6_acks (polls : Nat → List (List Nat)) (ackWait : Nat) :
    wait_ack polls ackWait = true ↔
      ∃ i, i < ackWait ∧ ((polls i).any isAckLine) = true := by
  have h := waitAckAux_iff polls ackWait 0
  simpa using h

/-! ## send_file -/

/-- With a peer that acknowledges every line, the upload loop transmits
exactly the stripped lines (with a carriage return) of the prefix up to
and including the first `01`-typed line, and succeeds. -/
theorem sendFileLoop_all_ack (ack : Nat → Bool) (h : ∀ n, ack n = true) :
    ∀ (lines : List (List Char)) (n : Nat),
      sendFileLoop ack lines n =
        ⟨(takeThrough01 lines).map sendLineText, true, none⟩ := by
  intro lines
  induction lines with
  | nil => intro n; rfl
  | cons l ls ih =>
    intro n
    by_cases he : line79 l = ['0', '1']
    · simp [sendFileLoop, takeThrough01, h n, he]
    · simp [sendFileLoop, takeThrough01, h n, he, ih (n + 1)]

/-- C2: with a peer acknowledging every line, a 3-data-line + EOF image is
sent as exactly 4 lines in file order with overall success; with a peer
that never acknowledges line 2, exactly lines 1 and 2 are sent (line 3 is
not), the result is failure, and the failure log names line 2. -/
theorem uploader_send_scenarios :
    (∀ (l1 l2 l3 l4 : List Char) (ack : Nat → Bool),
      (∀ n, ack n = true) →
      line79 l1 ≠ ['0', '1'] → line79 l2 ≠ ['0', '1'] → line79 l3 ≠ ['0', '1'] →
      line79 l4 = ['0', '1'] →
      send_file ack [l1, l2, l3, l4] =
        ⟨[sendLineText l1, sendLineText l2, sendLineText l3, sendLineText l4],
          true, none⟩) ∧
    (∀ (l1 l2 l3 l4 : List Char) (ack : Nat → Bool),
      ack 1 = true → ack 2 = false → line79 l1 ≠ ['0', '1'] →
      send_file ack [l1, l2, l3, l4] =
        ⟨[sendLineText l1, sendLineText l2], false, some 2⟩) := by
  constructor
  · intro l1 l2 l3 l4 ack h h1 h2 h3 h4
    simp [send_file, sendFileLoop, h, h1, h2, h3, h4]
  · intro l1 l2 l3 l4 ack ha1 ha2 h1
    simp [send_file, sendFileLoop, ha1, ha2, h1]

/-- C2 witness: a concrete 3-data-line + EOF image against an always-ack
peer and against a peer that never acknowledges line 2. -/
theorem uploader_send_scenarios_witness :
    send_file (fun _ => true)
        [":0100000041BE".toList, ":0100010041BD".toList, ":0100020041BC".toList,
          ":00000001FF".toList] =
      ⟨[sendLineText ":0100000041BE".toList, sendLineText ":0100010041BD".toList,
          sendLineText ":0100020041BC".toList, sendLineText ":00000001FF".toList],
        true, none⟩ ∧
    send_file (fun n => decide (n = 1))
        [":0100000041BE".toList, ":0100010041BD".toList, ":0100020041BC".toList,
          ":00000001FF".toList] =
      ⟨[sendLineText ":0100000041BE".toList, sendLineText ":0100010041BD".toList],
        false, some 2⟩ := by
  constructor
  · exact uploader_send_scenarios.1 _ _ _ _ (fun _ => true) (fun _ => rfl)
      (by decide) (by decide) (by decide) (by decide)
  · exact uploader_send_scenarios.2 _ _ _ _ (fun n => decide (n = 1)) rfl rfl
      (by decide)

/-- C10: against an always-acknowledging peer, `send_file` transmits the
file's physical lines (stripped, carriage return appended) in file order,
stopping after the first line whose raw characters at positions 7-8 are
`01`.  The function never consults the validation result: the statement
holds for arbitrary lines, including ones that are not valid HEX records,
which are transmitted unchanged. -/
theorem send_file_transmits_physical_lines (lines : List (List Char))
    (ack : Nat → Bool) (h : ∀ n, ack n = true) :
    send_file ack lines = ⟨(takeThrough01 lines).map sendLineText, true, none⟩ :=
  sendFileLoop_all_ack ack h lines 1

/-- C10 witness: a file whose first line is not a HEX record at all is
still transmitted verbatim (stripped + CR) before the EOF-typed line;
the line after the `01` line is not sent. -/
theorem send_file_transmits_physical_lines_witness :
    send_file (fun _ => true)
        ["hello world".toList, ":00000001FF".toList, ":0100000041BE".toList] =
      ⟨["hello world\r".toList, ":00000001FF\r".toList], true, none⟩ := by
  rw [send_file_transmits_physical_lines _ (fun _ => true) (fun _ => rfl)]
  decide

/-! ## validate_file and the MD5 digest -/

/-- C8 counterexample: on a perfectly valid one-record file, the validation
verdict is `ok` when the digest computation succeeds but `exnFailure`
(the caught exception makes `validate_file` return `False`) when it
fails, so the verdict is not independent of the digest side effect. -/
theorem md5_failure_changes_verdict :
    validate_file false false [":00000001FF".toList] = .ok ∧
    validate_file false true [":00000001FF".toList] = .exnFailure := by
  constructor <;> decide

/-- C8 amended: a failure while computing the MD5 digest is fatal, not
advisory — it is caught by the surrounding handler and makes
`validate_file` return failure.  The verdict is unaffected by the digest
only when the digest step is disabled with `skip_fw_md5`, in which case
(and likewise whenever the digest succeeds) validation is the pure line
scan. -/
theorem md5_failure_is_fatal_unless_skipped (md5Fails : Bool)
    (lines : List (List Char)) :
    validate_file true md5Fails lines = validateLines lines 1 ∧
    validate_file false false lines = validateLines lines 1 ∧
    validate_file false true lines = .exnFailure := by
  refine ⟨?_, ?_, ?_⟩ <;> simp [validate_file]

/-! ## Scan-loop lemmas -/

/-- One step of `validateLines`, restated with the named per-line
predicates. -/
theorem validateLines_cons (l : List Char) (ls : List (List Char)) (n : Nat) :
    validateLines (l :: ls) n =
      if lineWellFormed l then
        if lineCountOk l then
          if lineChecksumOk l then
            if lineIsEof l then .ok else validateLines ls (n + 1)
          else .checksumMismatch n
        else .lengthMismatch n
      else .exnFailure := by
  by_cases h1 : matchesRecord (pyStrip l) = true <;>
    by_cases h2 : payloadLen (recRest l) = 2 * declaredCount (recRest l) <;>
      by_cases h3 : pairSum (recRest l) % 256 = 0 <;>
        by_cases h4 : typeField (recRest l) = ['0', '1'] <;>
          simp [validateLines, lineWellFormed, lineCountOk, lineChecksumOk,
            lineIsEof, recRest, h1, h2, h3, h4]

/-- Lines that pass every check and are not EOF records are consumed by the
scan, advancing the line counter. -/
theorem validateLines_append (pre rest : List (List Char)) :
    ∀ n, (∀ p ∈ pre, lineOk p = true ∧ lineIsEof p = false) →
      validateLines (pre ++ rest) n = validateLines rest (n + pre.length) := by
  induction pre with
  | nil => intro n _; simp
  | cons p t ih =>
    intro n h
    have hp := h p (List.mem_cons_self p t)
    have hok := hp.1
    simp only [lineOk, Bool.and_eq_true] at hok
    rw [List.cons_append, validateLines_cons, if_pos hok.1.1, if_pos hok.1.2,
      if_pos hok.2, hp.2, if_neg (by simp),
      ih (n + 1) (fun q hq => h q (List.mem_cons_of_mem p hq))]
    congr 1
    simp [List.length_cons]
    omega

/-- If a scan of `pre ++ rest` succeeds and no line of `pre` is an EOF
record, then every line of `pre` passes all checks and the scan of `rest`
(at the shifted line counter) succeeds as well. -/
theorem validateLines_ok_prefix (pre rest : List (List Char)) :
    ∀ n, validateLines (pre ++ rest) n = .ok →
      (∀ p ∈ pre, lineIsEof p = false) →
      (∀ p ∈ pre, lineOk p = true) ∧
        validateLines rest (n + pre.length) = .ok := by
  induction pre with
  | nil => intro n h _; exact ⟨by simp, by simpa using h⟩
  | cons p t ih =>
    intro n hok hpre
    have hpe := hpre p (List.mem_cons_self p t)
    rw [List.cons_append, validateLines_cons] at hok
    by_cases h1 : lineWellFormed p = true
    case neg => simp [h1] at hok
    by_cases h2 : lineCountOk p = true
    case neg => simp [h1, h2] at hok
    by_cases h3 : lineChecksumOk p = true
    case neg => simp [h1, h2, h3] at hok
    rw [if_pos h1, if_pos h2, if_pos h3, hpe, if_neg (by simp)] at hok
    obtain ⟨ht, hrest⟩ :=
      ih (n + 1) hok (fun q hq => hpre q (List.mem_cons_of_mem p hq))
    refine ⟨?_, ?_⟩
    · intro q hq
      rcases List.mem_cons.mp hq with rfl | hq
      · simp [lineOk, h1, h2, h3]
      · exact ht q hq
    · rw [show n + (p :: t).length = n + 1 + t.length by simp; omega]
      exact hrest

/-! ## C5: malformed records -/

/-- C5 counterexample: a line that does not match the record grammar makes
validation fail through the generic caught-exception path, whose result
carries no line number — a grammar failure on line 1 and one on line 2
produce the identical outcome `exnFailure`, so no `MalformedRecord`
error with the offending line number exists in the code. -/
theorem malformed_line_no_line_number :
    validate_file true false ["BAD LINE".toList] = .exnFailure ∧
    validate_file true false [":0100000041BE".toList, "BAD LINE".toList] =
      .exnFailure := by
  constructor <;> decide

/-- C5 amended: a line (before any type-01 record) that fails the record
grammar makes validation fail, but through the generic exception handler
(log message "Failed to verify firmware file"), not with an error
carrying that line's number. -/
theorem malformed_line_fails_generically (skipMd5 : Bool)
    (pre : List (List Char)) (bad : List Char) (post : List (List Char))
    (hpre : ∀ p ∈ pre, lineOk p = true ∧ lineIsEof p = false)
    (hbad : lineWellFormed bad = false) :
    validate_file skipMd5 false (pre ++ bad :: post) = .exnFailure := by
  have h1 : validate_file skipMd5 false (pre ++ bad :: post) =
      validateLines (pre ++ bad :: post) 1 := by simp [validate_file]
  rw [h1, validateLines_append pre (bad :: post) 1 hpre, validateLines_cons,
    if_neg (by simp [hbad])]

/-- C5 witness: a malformed second line behind one valid data record. -/
theorem malformed_line_fails_generically_witness :
    validate_file true false [":0100000041BE".toList, "BAD LINE".toList] =
      .exnFailure :=
  malformed_line_fails_generically true [":0100000041BE".toList]
    "BAD LINE".toList [] (by decide) (by decide)

/-! ## C6: verify-only mode -/

/-- C6 counterexample: in a verify-only run (`fw_verify_only` set) on a
host where the smbus module is available, `upload_firmware` reports
success, yet the program run has already performed I2C register reads
(device 0x69, registers 0x35 and 0x36) during capability detection — so
the run is not free of I2C register access. -/
theorem verify_only_run_touches_i2c :
    (upload_firmware cexArgs cexEnv).1 = true ∧
    program_trace cexArgs cexEnv =
      [.i2cRead 0x69 0x35, .i2cRead 0x69 0x36] := by
  constructor <;> rfl

/-- C6 amended: with `fw_verify_only` set, `upload_firmware` itself stops
right after the validation step and reports success with no hardware
interaction of its own (no I2C access, no serial open, no serial write);
the I2C register reads of the preceding capability-detection step still
happen whenever smbus is available. -/
theorem verify_only_stops_before_hardware (args : UploadArgs) (env : UploadEnv)
    (hvo : args.fw_verify_only = true) (hs : env.serialAvail = true)
    (hv : args.skip_fw_verify = true ∨
      validate_file args.skip_fw_md5 env.md5Fails env.fwLines = .ok) :
    upload_firmware args env = (true, []) := by
  unfold upload_firmware
  rw [hs]
  rcases hv with h | h <;> simp [h, hvo]

/-- C6 witness: the amended statement at the concrete verify-only run. -/
theorem verify_only_stops_before_hardware_witness :
    upload_firmware cexArgs cexEnv = (true, []) :=
  verify_only_stops_before_hardware cexArgs cexEnv rfl rfl (Or.inr (by decide))

/-! ## C1: characterisation of validation success -/

/-- The scan succeeds exactly when `scanOk` holds, at any line counter. -/
theorem validateLines_ok_iff_scanOk :
    ∀ (ls : List (List Char)) (n : Nat),
      validateLines ls n = .ok ↔ scanOk ls = true := by
  intro ls
  induction ls with
  | nil => intro n; simp [validateLines, scanOk]
  | cons l t ih =>
    intro n
    rw [validateLines_cons]
    by_cases h1 : lineWellFormed l = true <;>
      by_cases h2 : lineCountOk l = true <;>
        by_cases h3 : lineChecksumOk l = true <;>
          by_cases h4 : lineIsEof l = true <;>
            simp [scanOk, lineOk, h1, h2, h3, h4, ih (n + 1)]

/-- `scanOk` unfolded into the claim's quantified form: some line is the
first EOF record and every line up to and including it passes all
checks. -/
theorem scanOk_iff (ls : List (List Char)) :
    scanOk ls = true ↔
      ∃ k, k < ls.length ∧ lineIsEof (ls.getD k []) = true ∧
        (∀ j, j < k → lineIsEof (ls.getD j []) = false) ∧
        (∀ j, j ≤ k → lineOk (ls.getD j []) = true) := by
  induction ls with
  | nil => simp [scanOk]
  | cons l t ih =>
    simp only [scanOk, Bool.and_eq_true, Bool.or_eq_true]
    constructor
    · rintro ⟨hok, hrest⟩
      by_cases he : lineIsEof l = true
      · refine ⟨0, by simp, by simpa using he, by omega, ?_⟩
        intro j hj
        have : j = 0 := Nat.le_zero.mp hj
        subst this
        simpa using hok
      · rcases hrest with he' | hscan
        · exact absurd he' he
        · obtain ⟨k, hk, hke, hne, hall⟩ := ih.mp hscan
          refine ⟨k + 1, by simpa using hk, by simpa using hke, ?_, ?_⟩
          · intro j hj
            rcases j with _ | j
            · simpa using Bool.eq_false_iff.mpr he
            · simpa using hne j (by omega)
          · intro j hj
            rcases j with _ | j
            · simpa using hok
            · simpa using hall j (by omega)
    · rintro ⟨k, hk, hke, hne, hall⟩
      rcases k with _ | k
      · refine ⟨by simpa using hall 0 (Nat.le_refl 0), Or.inl (by simpa using hke)⟩
      · refine ⟨by simpa using hall 0 (by omega), Or.inr (ih.mpr ?_)⟩
        refine ⟨k, by simpa using hk, by simpa using hke, ?_, ?_⟩
        · intro j hj
          simpa using hne (j + 1) (by omega)
        · intro j hj
          simpa using hall (j + 1) (by omega)

/-- C1: when the digest step does not fail, validation succeeds iff some
line is the first record whose type field is `01` and every line up to
and including it satisfies both the declared-byte-count check and the
byte-sum-mod-256 check; and if every line passes all checks but no line
is a type-01 record, validation fails with the missing-EOF-record
outcome. -/
theorem validate_success_characterisation (skipMd5 : Bool)
    (lines : List (List Char)) :
    (validate_file skipMd5 false lines = .ok ↔
      ∃ k, k < lines.length ∧ lineIsEof (lines.getD k []) = true ∧
        (∀ j, j < k → lineIsEof (lines.getD j []) = false) ∧
        (∀ j, j ≤ k → lineOk (lines.getD j []) = true)) ∧
    ((∀ l ∈ lines, lineOk l = true ∧ lineIsEof l = false) →
      validate_file skipMd5 false lines = .missingEof) := by
  have hv : validate_file skipMd5 false lines = validateLines lines 1 := by
    simp [validate_file]
  constructor
  · rw [hv, validateLines_ok_iff_scanOk lines 1]
    exact scanOk_iff lines
  · intro h
    rw [hv]
    have := validateLines_append lines [] 1 h
    simpa using this

/-- C1 witness: the characterisation applied to a concrete valid two-line
image (success direction) and to a concrete EOF-less image (missing-EOF
direction). -/
theorem validate_success_characterisation_witness :
    validate_file true false [":0100000041BE".toList, ":00000001FF".toList] = .ok ∧
    validate_file true false [":0100000041BE".toList] = .missingEof := by
  constructor
  · exact (validate_success_characterisation true
      [":0100000041BE".toList, ":00000001FF".toList]).1.mpr
      ⟨1, by decide, by decide, by
        intro j hj
        have : j = 0 := by omega
        subst this
        decide, by
        intro j hj
        rcases j with _ | j
        · decide
        · have : j = 0 := by omega
          subst this
          decide⟩
  · exact (validate_success_characterisation true [":0100000041BE".toList]).2
      (by decide)

/-! ## Character and hex arithmetic lemmas -/

/-- Python whitespace characters have code points at most 32. -/
theorem pySpace_le (ch : Char) (h : isPySpace ch = true) : ch.toNat ≤ 32 := by
  simp only [isPySpace, Bool.or_eq_true, decide_eq_true_eq] at h
  rcases h with ((((h | h) | h) | h) | h) | h <;> subst h <;> decide

/-- Hex digits have code points at least 48. -/
theorem hexDigit_ge (ch : Char) (h : isHexDigit ch = true) : 48 ≤ ch.toNat := by
  simp only [isHexDigit, Bool.or_eq_true, Bool.and_eq_true, decide_eq_true_eq] at h
  omega

/-- A hex digit is never stripped as whitespace. -/
theorem hex_not_space (ch : Char) (h : isHexDigit ch = true) :
    isPySpace ch = false := by
  rcases hsp : isPySpace ch with _ | _
  · rfl
  · have h1 := pySpace_le ch hsp
    have h2 := hexDigit_ge ch h
    omega

/-- The value of a hex digit is below 16. -/
theorem hexVal_lt_16 (ch : Char) (h : isHexDigit ch = true) : hexVal ch < 16 := by
  simp only [isHexDigit, Bool.or_eq_true, Bool.and_eq_true, decide_eq_true_eq] at h
  unfold hexVal
  split
  · next h1 =>
    simp only [Bool.and_eq_true, decide_eq_true_eq] at h1
    omega
  · split <;> omega

/-- The value of a hex pair is below 256. -/
theorem hexByte_lt (a b : Char) (ha : isHexDigit a = true)
    (hb : isHexDigit b = true) : hexByte a b < 256 := by
  have h1 := hexVal_lt_16 a ha
  have h2 := hexVal_lt_16 b hb
  unfold hexByte
  omega

/-- Stripping a line whose first and last characters are not whitespace
changes nothing. -/
theorem pyStrip_of_ends (x y : Char) (m : List Char)
    (hx : isPySpace x = false) (hy : isPySpace y = false) :
    pyStrip (x :: m ++ [y]) = x :: m ++ [y] := by
  show pyStrip (x :: (m ++ [y])) = x :: (m ++ [y])
  unfold pyStrip
  have h1 : List.dropWhile isPySpace (x :: (m ++ [y])) = x :: (m ++ [y]) := by
    simp [List.dropWhile_cons, hx]
  rw [h1]
  have h2 : (x :: (m ++ [y])).reverse = y :: (m.reverse ++ [x]) := by
    simp
  rw [h2]
  have h3 : List.dropWhile isPySpace (y :: (m.reverse ++ [x])) =
      y :: (m.reverse ++ [x]) := by
    simp [List.dropWhile_cons, hy]
  rw [h3, ← h2, List.reverse_reverse]

/-- The declared byte count only reads the first two characters, so it is
unaffected by the trailing checksum pair. -/
theorem declaredCount_append_pair (v : List Char) (hv : 2 ≤ v.length)
    (a b : Char) : declaredCount (v ++ [a, b]) = declaredCount v := by
  rcases v with _ | ⟨x, _ | ⟨y, t⟩⟩
  · simp only [List.length_nil] at hv
    omega
  · simp only [List.length_cons, List.length_nil] at hv
    omega
  · rfl

/-- Splitting the trailing checksum pair off an even-length prefix of the
hex-pair sum. -/
theorem pairSum_append_pair :
    ∀ (v : List Char), v.length % 2 = 0 →
      ∀ a b, pairSum (v ++ [a, b]) = pairSum v + hexByte a b
  | [], _, a, b => by simp [pairSum, hexByte]
  | [x], h, a, b => by simp at h
  | x :: y :: t, h, a, b => by
    have ht : t.length % 2 = 0 := by
      simp only [List.length_cons] at h
      omega
    show hexByte x y + pairSum (t ++ [a, b]) = hexByte x y + pairSum t + hexByte a b
    rw [pairSum_append_pair t ht a b]
    omega

/-! ## C4: checksum mutation -/

/-- C4: take a file that validates successfully whose line `L`
(`L = pre.length + 1`, at or before the terminal type-01 record, i.e. with
no EOF record among the earlier lines) is the record `':' :: v ++ [a, b]`
with checksum byte `ab`.  Replacing one digit of the checksum byte with a
hex digit of a different value (giving `':' :: v ++ [c, d]`) makes
validation fail with the invalid-checksum outcome at exactly line `L`. -/
theorem checksum_mutation_detected (skipMd5 : Bool)
    (pre post : List (List Char)) (v : List Char) (a b c d : Char)
    (ha : isHexDigit a = true) (hb : isHexDigit b = true)
    (hc : isHexDigit c = true) (hd : isHexDigit d = true)
    (hok : validate_file skipMd5 false (pre ++ (':' :: v ++ [a, b]) :: post) = .ok)
    (hpre : ∀ p ∈ pre, lineIsEof p = false)
    (hmut : (hexVal c ≠ hexVal a ∧ hexVal d = hexVal b) ∨
            (hexVal c = hexVal a ∧ hexVal d ≠ hexVal b)) :
    validate_file skipMd5 false (pre ++ (':' :: v ++ [c, d]) :: post) =
      .checksumMismatch (pre.length + 1) := by
  have hvf : ∀ L, validate_file skipMd5 false L = validateLines L 1 := by
    intro L
    simp [validate_file]
  rw [hvf] at hok
  rw [hvf]
  simp only [List.cons_append] at hok ⊢
  obtain ⟨hpreOk, hok2⟩ :=
    validateLines_ok_prefix pre ((':' :: (v ++ [a, b])) :: post) 1 hok hpre
  rw [validateLines_cons] at hok2
  by_cases h1 : lineWellFormed (':' :: (v ++ [a, b])) = true
  case neg => simp [h1] at hok2
  by_cases h2 : lineCountOk (':' :: (v ++ [a, b])) = true
  case neg => simp [h1, h2] at hok2
  by_cases h3 : lineChecksumOk (':' :: (v ++ [a, b])) = true
  case neg => simp [h1, h2, h3] at hok2
  -- facts about the original line
  have hstrip : pyStrip (':' :: (v ++ [a, b])) = ':' :: (v ++ [a, b]) := by
    have h := pyStrip_of_ends ':' b (v ++ [a]) (by decide) (hex_not_space b hb)
    simpa [List.cons_append, List.append_assoc] using h
  have hrest : recRest (':' :: (v ++ [a, b])) = v ++ [a, b] := by
    simp [recRest, hstrip]
  have hm : matchesRecord (':' :: (v ++ [a, b])) = true := by
    rwa [lineWellFormed, hstrip] at h1
  have hvhex : ∀ x ∈ v, isHexDigit x = true := by
    intro x hx
    have hall : (v ++ [a, b]).all isHexDigit = true := by
      simp only [matchesRecord, Bool.and_eq_true] at hm
      exact hm.1.2
    rw [List.all_eq_true] at hall
    exact hall x (List.mem_append.mpr (Or.inl hx))
  have hlen : 10 ≤ (v ++ [a, b]).length := by
    simp only [matchesRecord, Bool.and_eq_true, decide_eq_true_eq] at hm
    exact hm.2
  have hv8 : 8 ≤ v.length := by
    simp only [List.length_append, List.length_cons, List.length_nil] at hlen
    omega
  have hv2 : 2 ≤ v.length := by omega
  have hcnt : payloadLen (v ++ [a, b]) = 2 * declaredCount (v ++ [a, b]) := by
    simp only [lineCountOk, hrest, decide_eq_true_eq] at h2
    exact h2
  have hplen : v.length + 2 - 10 = 2 * declaredCount v := by
    rw [declaredCount_append_pair v hv2 a b] at hcnt
    simpa [payloadLen, List.length_append] using hcnt
  have heven : v.length % 2 = 0 := by omega
  have hsum : (pairSum v + hexByte a b) % 256 = 0 := by
    simp only [lineChecksumOk, hrest, decide_eq_true_eq] at h3
    rwa [pairSum_append_pair v heven a b] at h3
  -- facts about the mutated line
  have hstrip2 : pyStrip (':' :: (v ++ [c, d])) = ':' :: (v ++ [c, d]) := by
    have h := pyStrip_of_ends ':' d (v ++ [c]) (by decide) (hex_not_space d hd)
    simpa [List.cons_append, List.append_assoc] using h
  have hrest2 : recRest (':' :: (v ++ [c, d])) = v ++ [c, d] := by
    simp [recRest, hstrip2]
  have hwf2 : lineWellFormed (':' :: (v ++ [c, d])) = true := by
    rw [lineWellFormed, hstrip2]
    simp only [matchesRecord, Bool.and_eq_true, decide_eq_true_eq,
      List.all_eq_true]
    refine ⟨⟨trivial, ?_⟩, ?_⟩
    · intro x hx
      rcases List.mem_append.mp hx with h | h
      · exact hvhex x h
      · simp only [List.mem_cons, List.not_mem_nil, or_false] at h
        rcases h with rfl | rfl
        · exact hc
        · exact hd
    · simp only [List.length_append, List.length_cons, List.length_nil]
      omega
  have hcnt2 : lineCountOk (':' :: (v ++ [c, d])) = true := by
    simp only [lineCountOk, hrest2, decide_eq_true_eq]
    rw [declaredCount_append_pair v hv2 c d]
    simp only [payloadLen, List.length_append, List.length_cons, List.length_nil]
    omega
  have hchk2 : lineChecksumOk (':' :: (v ++ [c, d])) = false := by
    simp only [lineChecksumOk, hrest2]
    rw [pairSum_append_pair v heven c d]
    have hne : hexByte c d ≠ hexByte a b := by
      unfold hexByte
      rcases hmut with ⟨h5, h6⟩ | ⟨h5, h6⟩ <;> omega
    have hlt1 := hexByte_lt a b ha hb
    have hlt2 := hexByte_lt c d hc hd
    simp only [decide_eq_false_iff_not]
    omega
  have hpair : ∀ p ∈ pre, lineOk p = true ∧ lineIsEof p = false :=
    fun p hp => ⟨hpreOk p hp, hpre p hp⟩
  rw [validateLines_append pre ((':' :: (v ++ [c, d])) :: post) 1 hpair,
    validateLines_cons, if_pos hwf2, if_pos hcnt2, if_neg (by simp [hchk2])]
  congr 1
  omega

/-- C4 witness: mutating the low digit of the EOF record's checksum byte
(`FF` to `F0`) in a concrete valid two-line file is reported as an invalid
checksum on line 2. -/
theorem checksum_mutation_detected_witness :
    validate_file true false
        ([":0100000041BE".toList] ++ (':' :: "00000001".toList ++ ['F', '0']) :: []) =
      .checksumMismatch 2 := by
  have h := checksum_mutation_detected true [":0100000041BE".toList] []
    "00000001".toList 'F' 'F' 'F' '0' (by decide) (by decide) (by decide)
    (by decide) (by decide) (by decide) (Or.inr ⟨rfl, by decide⟩)
  simpa using h

end Pimodules
